import Mathlib

/-!
Verification of the `slide_match` matching engine.

Shallow embedding of `src/lib.rs` (crate `slide_match`): alpha-aware crop
scan, grayscale reduction, adaptive Canny thresholding, edge-based template
matching and the confidence-gated fallback, together with theorems checking
the specification's claims.

Machine `f32` arithmetic is modelled exactly over `ℚ` (with `Rat.sqrt` as
the square-root model); `u32` quantities are modelled as `ℕ` (all pixel
coordinates involved stay far below `2^32`).

The Canny edge detector, the grayscale luma conversion and the template
matcher are implemented by the external `image` / `imageproc` crates, whose
sources are not part of this repository; they are modelled from the
specification (each such definition is marked `Modelled from the spec:`).
The Canny detector in particular is kept opaque: the development is
parameterised by any dimension-preserving edge detector.
-/

/-- An RGBA pixel, four 8-bit channels (`ℕ`-modelled). -/
structure RGBA where
  r : Nat
  g : Nat
  b : Nat
  a : Nat
deriving DecidableEq, Repr

/-- An RGBA image: dimensions plus a total pixel function (values outside
the `width × height` grid are irrelevant junk, as in a row-major buffer). -/
structure RGBAImage where
  width : Nat
  height : Nat
  pix : Nat → Nat → RGBA

/-- A single-channel (grayscale / edge-map) image. -/
structure GrayImage where
  width : Nat
  height : Nat
  pix : Nat → Nat → Nat

/-- The public result record `SlideBBox` of `src/lib.rs`. -/
structure SlideBBox where
  target_x : Nat
  target_y : Nat
  x1 : Nat
  y1 : Nat
  x2 : Nat
  y2 : Nat
deriving DecidableEq, Repr

/-- Error outcomes of the matching entry points (`anyhow` / napi errors in
the source, distinguished here by kind). -/
inductive MatchError where
  | dimensionError : MatchError
  | validationError : MatchError
  | ioError : MatchError
deriving DecidableEq, Repr

/-- Location and value of the extremum found by template matching
(`find_extremes`'s maximum in the source). -/
structure MatchPoint where
  x : Nat
  y : Nat
  score : ℚ
deriving DecidableEq, Repr

/-- Modelled from the spec: the grayscale luma conversion implemented by the
external `image` crate (`imageops::grayscale` / `to_luma8`), §4.2:
`L = 0.299·R + 0.587·G + 0.114·B`, rounded to nearest 8-bit integer, alpha
discarded. -/
def luma (p : RGBA) : Nat :=
  (round ((299 * p.r + 587 * p.g + 114 * p.b : ℚ) / 1000)).toNat

/-- Modelled from the spec: per-pixel grayscale reduction of an RGBA image
(external `image` crate). -/
def grayscale (img : RGBAImage) : GrayImage :=
  { width := img.width, height := img.height
    pix := fun x y => luma (img.pix x y) }

/-- The pixel values of a grayscale image, row-major (`img.iter()` on a
`GrayImage` buffer in the source). -/
def GrayImage.pixels (img : GrayImage) : List Nat :=
  (List.range img.height).flatMap fun y =>
    (List.range img.width).map fun x => img.pix x y

/-- Embedding of `calculate_adaptive_canny_thresholds` (src/lib.rs:22-47):
mean and population standard deviation of the pixel values, then
`low = max (max (mean - σ) 0) 50`, `high = min (min (mean + 2σ) 255) 250`.
`f32` arithmetic is modelled exactly over `ℚ`, `f32::sqrt` by `Rat.sqrt`. -/
def calculate_adaptive_canny_thresholds (img : GrayImage) : ℚ × ℚ :=
  let total_pixels : ℚ := ((img.width * img.height : Nat) : ℚ)
  let sum : ℚ := (img.pixels.map fun (p : Nat) => (p : ℚ)).sum
  let mean : ℚ := sum / total_pixels
  let variance : ℚ := (img.pixels.map fun (p : Nat) => ((p : ℚ) - mean) * ((p : ℚ) - mean)).sum
  let std_dev : ℚ := Rat.sqrt (variance / total_pixels)
  let low_threshold : ℚ := max (mean - std_dev) 0
  let high_threshold : ℚ := min (mean + std_dev * 2) 255
  (max low_threshold 50, min high_threshold 250)

/-- Embedding of `validate_match_result` (src/lib.rs:50-52). -/
def validate_match_result (max_value confidence_threshold : ℚ) : Bool :=
  max_value > confidence_threshold

/-- Modelled from the spec: interface of the Canny edge detector (§4.4),
implemented by the external `imageproc` crate. It is kept opaque — any
function from a grayscale image and two thresholds to an edge map of the
same dimensions — since no claim depends on which pixels become edges. -/
structure EdgeDetector where
  canny : GrayImage → ℚ → ℚ → GrayImage
  canny_width : ∀ g low high, (canny g low high).width = g.width
  canny_height : ∀ g low high, (canny g low high).height = g.height

/-- A trivial concrete edge detector (identity on the image), used to
instantiate witnesses. -/
def idEdges : EdgeDetector where
  canny := fun g _ _ => g
  canny_width := fun _ _ _ => rfl
  canny_height := fun _ _ _ => rfl

/-- The four scan accumulators of the crop loop in `slide_match_internal`
(src/lib.rs:74-101), initialised to `(width, height, 0, 0)`. -/
structure CropScan where
  start_x : Nat
  start_y : Nat
  end_x : Nat
  end_y : Nat
deriving DecidableEq, Repr

/-- One step of the alpha scan loop body (src/lib.rs:81-99): on a pixel with
non-zero alpha, shrink `start_x/start_y` and grow `end_x/end_y`. -/
def scanStep (p : RGBA) (x y : Nat) (s : CropScan) : CropScan :=
  if p.a ≠ 0 then
    { start_x := if x < s.start_x then x else s.start_x
      start_y := if y < s.start_y then y else s.start_y
      end_x := if x > s.end_x then x else s.end_x
      end_y := if y > s.end_y then y else s.end_y }
  else s

/-- The pixel coordinates visited by the crop scan, in source order
(`for x in 0..width { for y in 0..height }`). -/
def scanCoords (width height : Nat) : List (Nat × Nat) :=
  (List.range width).flatMap fun x =>
    (List.range height).map fun y => (x, y)

/-- Embedding of the alpha scan of `slide_match_internal` /
`improved_slide_match_internal` (src/lib.rs:74-101). -/
def alphaScan (img : RGBAImage) : CropScan :=
  (scanCoords img.width img.height).foldl
    (fun s xy => scanStep (img.pix xy.1 xy.2) xy.1 xy.2 s)
    { start_x := img.width, start_y := img.height, end_x := 0, end_y := 0 }

/-- Embedding of the crop (src/lib.rs:103-115): if the scan found no opaque
pixel (`start_x > end_x || start_y > end_y`) the image is kept unmodified,
otherwise `crop_imm(start_x, start_y, end_x-start_x+1, end_y-start_y+1)`. -/
def croppedImage (img : RGBAImage) : RGBAImage :=
  let s := alphaScan img
  if s.start_x > s.end_x ∨ s.start_y > s.end_y then img
  else
    { width := s.end_x - s.start_x + 1
      height := s.end_y - s.start_y + 1
      pix := fun x y => img.pix (s.start_x + x) (s.start_y + y) }

/-- Sum of `f` over the `tw × th` window of `img` at offset `(x, y)`. -/
def windowSum (img : GrayImage) (x y tw th : Nat) (f : Nat → ℚ) : ℚ :=
  (((List.range th).flatMap fun j =>
    (List.range tw).map fun i => img.pix (x + i) (y + j)).map f).sum

/-- Modelled from the spec: the normalized cross-correlation score of §4.5
(external `imageproc` template matcher) at offset `(x, y)` — covariance of
the background window and the template, each centred at its own mean,
divided by the square root of the product of the two sums of squares; `0`
when either sum of squares is zero. -/
def nccScore (bg tgt : GrayImage) (x y : Nat) : ℚ :=
  let tw := tgt.width
  let th := tgt.height
  let n : ℚ := ((tw * th : Nat) : ℚ)
  let meanT : ℚ := windowSum tgt 0 0 tw th (fun v => (v : ℚ)) / n
  let meanB : ℚ := windowSum bg x y tw th (fun v => (v : ℚ)) / n
  let num : ℚ :=
    (((List.range th).flatMap fun j =>
      (List.range tw).map fun i =>
        ((bg.pix (x + i) (y + j) : ℚ) - meanB) * ((tgt.pix i j : ℚ) - meanT)).sum)
  let denB : ℚ := windowSum bg x y tw th (fun v => ((v : ℚ) - meanB) * ((v : ℚ) - meanB))
  let denT : ℚ := windowSum tgt 0 0 tw th (fun v => ((v : ℚ) - meanT) * ((v : ℚ) - meanT))
  if denB = 0 ∨ denT = 0 then 0 else num / Rat.sqrt (denB * denT)

/-- The valid template offsets, in row-major scan order (y outer, x inner,
both ascending), for a `W' × H'` correlation surface. -/
def rmOffsets (W' H' : Nat) : List (Nat × Nat) :=
  (List.range H').flatMap fun y =>
    (List.range W').map fun x => (x, y)

/-- One update step of the maximum scan: strictly greater scores win, so on
ties the earlier offset is kept. -/
def bestStep (f : Nat × Nat → ℚ) (best : MatchPoint) (xy : Nat × Nat) : MatchPoint :=
  if f xy > best.score then { x := xy.1, y := xy.2, score := f xy } else best

/-- Modelled from the spec: `match_template` +`find_extremes` of the
external `imageproc` crate (§4.5) — the global maximum of the correlation
surface, first-encountered-in-row-major-order on ties. -/
def findExtremes (bg tgt : GrayImage) : MatchPoint :=
  let f : Nat × Nat → ℚ := fun xy => nccScore bg tgt xy.1 xy.2
  (rmOffsets (bg.width - tgt.width + 1) (bg.height - tgt.height + 1)).foldl
    (bestStep f) { x := 0, y := 0, score := f (0, 0) }

/-- The adaptive edge map of a grayscale image: thresholds from
`calculate_adaptive_canny_thresholds`, then Canny with them (src/lib.rs:283-287). -/
def adaptiveEdges (E : EdgeDetector) (g : GrayImage) : GrayImage :=
  E.canny g (calculate_adaptive_canny_thresholds g).1 (calculate_adaptive_canny_thresholds g).2

/-- Embedding of `slide_match_internal` (src/lib.rs:55-140): dimension
checks, alpha crop, grayscale, Canny at the fixed thresholds `(100, 200)`,
template matching. Decoding of the input bytes is the external collaborator
of spec §6, so the embedding starts from decoded images. -/
def slide_match_internal (E : EdgeDetector) (target background : RGBAImage) :
    Except MatchError SlideBBox :=
  if ¬ background.width ≥ target.width then .error .dimensionError
  else if ¬ background.height ≥ target.height then .error .dimensionError
  else
    let s := alphaScan target
    let cropped := croppedImage target
    let target_edges := E.canny (grayscale cropped) 100 200
    let background_edges := E.canny (grayscale background) 100 200
    let result := findExtremes background_edges target_edges
    .ok { target_x := s.start_x, target_y := s.start_y
          x1 := result.x, y1 := result.y
          x2 := result.x + target_edges.width
          y2 := result.y + target_edges.height }

/-- Embedding of `simple_slide_match_internal` (src/lib.rs:143-180): as
`slide_match_internal` but with no crop and `target_x = target_y = 0`. -/
def simple_slide_match_internal (E : EdgeDetector) (target background : RGBAImage) :
    Except MatchError SlideBBox :=
  if ¬ background.width ≥ target.width then .error .dimensionError
  else if ¬ background.height ≥ target.height then .error .dimensionError
  else
    let target_edges := E.canny (grayscale target) 100 200
    let background_edges := E.canny (grayscale background) 100 200
    let result := findExtremes background_edges target_edges
    .ok { target_x := 0, target_y := 0
          x1 := result.x, y1 := result.y
          x2 := result.x + target_edges.width
          y2 := result.y + target_edges.height }

/-- Embedding of `improved_slide_match_internal` (src/lib.rs:212-329):
dimension checks, alpha crop, grayscale, adaptive-threshold Canny, template
matching; if the maximum score fails `validate_match_result`, a full re-run
with the fixed thresholds `(100, 200)`. -/
def improved_slide_match_internal (E : EdgeDetector) (target background : RGBAImage)
    (confidence_threshold : ℚ) : Except MatchError SlideBBox :=
  if ¬ background.width ≥ target.width then .error .dimensionError
  else if ¬ background.height ≥ target.height then .error .dimensionError
  else
    let s := alphaScan target
    let cropped := croppedImage target
    let target_gray := grayscale cropped
    let background_gray := grayscale background
    let target_edges := adaptiveEdges E target_gray
    let background_edges := adaptiveEdges E background_gray
    let result := findExtremes background_edges target_edges
    if ¬ validate_match_result result.score confidence_threshold then
      let fb_target_edges := E.canny target_gray 100 200
      let fb_background_edges := E.canny background_gray 100 200
      let fallback_result := findExtremes fb_background_edges fb_target_edges
      .ok { target_x := s.start_x, target_y := s.start_y
            x1 := fallback_result.x, y1 := fallback_result.y
            x2 := fallback_result.x + fb_target_edges.width
            y2 := fallback_result.y + fb_target_edges.height }
    else
      .ok { target_x := s.start_x, target_y := s.start_y
            x1 := result.x, y1 := result.y
            x2 := result.x + target_edges.width
            y2 := result.y + target_edges.height }

/-- Embedding of `improved_simple_slide_match_internal` (src/lib.rs:332-400):
as `improved_slide_match_internal` but with no crop and
`target_x = target_y = 0`. -/
def improved_simple_slide_match_internal (E : EdgeDetector) (target background : RGBAImage)
    (confidence_threshold : ℚ) : Except MatchError SlideBBox :=
  if ¬ background.width ≥ target.width then .error .dimensionError
  else if ¬ background.height ≥ target.height then .error .dimensionError
  else
    let target_gray := grayscale target
    let background_gray := grayscale background
    let target_edges := adaptiveEdges E target_gray
    let background_edges := adaptiveEdges E background_gray
    let result := findExtremes background_edges target_edges
    if ¬ validate_match_result result.score confidence_threshold then
      let fb_target_edges := E.canny target_gray 100 200
      let fb_background_edges := E.canny background_gray 100 200
      let fallback_result := findExtremes fb_background_edges fb_target_edges
      .ok { target_x := 0, target_y := 0
            x1 := fallback_result.x, y1 := fallback_result.y
            x2 := fallback_result.x + fb_target_edges.width
            y2 := fallback_result.y + fb_target_edges.height }
    else
      .ok { target_x := 0, target_y := 0
            x1 := result.x, y1 := result.y
            x2 := result.x + target_edges.width
            y2 := result.y + target_edges.height }

/-- Embedding of the napi wrapper `slide_match` (src/lib.rs:185-193); the
Buffer unwrapping and error re-formatting add nothing to the result. -/
def slide_match (E : EdgeDetector) (target background : RGBAImage) :
    Except MatchError SlideBBox :=
  slide_match_internal E target background

/-- Embedding of the napi wrapper `simple_slide_match` (src/lib.rs:198-206). -/
def simple_slide_match (E : EdgeDetector) (target background : RGBAImage) :
    Except MatchError SlideBBox :=
  simple_slide_match_internal E target background

/-- Embedding of the napi wrapper `improved_slide_match` (src/lib.rs:411-429):
default the optional threshold to `0.3`, reject values outside `[0, 1]`,
then run the internal pipeline. -/
def improved_slide_match (E : EdgeDetector) (target background : RGBAImage)
    (confidence_threshold : Option ℚ) : Except MatchError SlideBBox :=
  let threshold := confidence_threshold.getD (3 / 10)
  if ¬ (0 ≤ threshold ∧ threshold ≤ 1) then .error .validationError
  else improved_slide_match_internal E target background threshold

/-- Embedding of the napi wrapper `improved_simple_slide_match`
(src/lib.rs:440-458). -/
def improved_simple_slide_match (E : EdgeDetector) (target background : RGBAImage)
    (confidence_threshold : Option ℚ) : Except MatchError SlideBBox :=
  let threshold := confidence_threshold.getD (3 / 10)
  if ¬ (0 ≤ threshold ∧ threshold ≤ 1) then .error .validationError
  else improved_simple_slide_match_internal E target background threshold

/-- Embedding of `improved_slide_match_with_path` (src/lib.rs:462-482).
File reading is the external collaborator; a read attempt is modelled by its
outcome (`Except`). The source reads both files before validating the
threshold, mirrored here. -/
def improved_slide_match_with_path (E : EdgeDetector)
    (target_read background_read : Except MatchError RGBAImage)
    (confidence_threshold : Option ℚ) : Except MatchError SlideBBox :=
  match target_read with
  | .error e => .error e
  | .ok target =>
    match background_read with
    | .error e => .error e
    | .ok background =>
      let threshold := confidence_threshold.getD (3 / 10)
      if ¬ (0 ≤ threshold ∧ threshold ≤ 1) then .error .validationError
      else improved_slide_match_internal E target background threshold

/-- Embedding of `improved_simple_slide_match_with_path` (src/lib.rs:486-506). -/
def improved_simple_slide_match_with_path (E : EdgeDetector)
    (target_read background_read : Except MatchError RGBAImage)
    (confidence_threshold : Option ℚ) : Except MatchError SlideBBox :=
  match target_read with
  | .error e => .error e
  | .ok target =>
    match background_read with
    | .error e => .error e
    | .ok background =>
      let threshold := confidence_threshold.getD (3 / 10)
      if ¬ (0 ≤ threshold ∧ threshold ≤ 1) then .error .validationError
      else improved_simple_slide_match_internal E target background threshold

/-- The maximum adaptive-pipeline correlation score of the cropped variant:
the value the confidence gate of `improved_slide_match_internal` compares
with the threshold. -/
def adaptiveScoreCropped (E : EdgeDetector) (target background : RGBAImage) : ℚ :=
  (findExtremes (adaptiveEdges E (grayscale background))
    (adaptiveEdges E (grayscale (croppedImage target)))).score

/-- The maximum adaptive-pipeline correlation score of the uncropped variant. -/
def adaptiveScoreSimple (E : EdgeDetector) (target background : RGBAImage) : ℚ :=
  (findExtremes (adaptiveEdges E (grayscale background))
    (adaptiveEdges E (grayscale target))).score

/-! ## Helper lemmas: the alpha scan -/

/-- Pixel `(x, y)` of `img` is inside the image and has non-zero alpha. -/
def OpaqueAt (img : RGBAImage) (x y : Nat) : Prop :=
  x < img.width ∧ y < img.height ∧ (img.pix x y).a ≠ 0

instance (img : RGBAImage) (x y : Nat) : Decidable (OpaqueAt img x y) := by
  unfold OpaqueAt; infer_instance

/-- The running minimum of `proj` over the elements of `L` satisfying `P`,
seeded with `m0` — the shape of each `start_*` accumulator of the scan. -/
def minFold {α : Type} (P : α → Prop) [DecidablePred P] (proj : α → Nat)
    (L : List α) (m0 : Nat) : Nat :=
  L.foldl (fun m q => if P q then (if proj q < m then proj q else m) else m) m0

/-- The running maximum of `proj` over the elements of `L` satisfying `P`,
seeded with `m0` — the shape of each `end_*` accumulator of the scan. -/
def maxFold {α : Type} (P : α → Prop) [DecidablePred P] (proj : α → Nat)
    (L : List α) (m0 : Nat) : Nat :=
  L.foldl (fun m q => if P q then (if proj q > m then proj q else m) else m) m0

/-- Row-major index of an offset on a surface of width `W` (y outer, x
inner). -/
def rmIdx (W : Nat) (xy : Nat × Nat) : Nat :=
  xy.2 * W + xy.1

/-- The mean pixel value (the `mean` accumulator of
`calculate_adaptive_canny_thresholds`), named for use in proofs. -/
def grayMean (img : GrayImage) : ℚ :=
  (img.pixels.map fun (p : Nat) => (p : ℚ)).sum / ((img.width * img.height : Nat) : ℚ)

/-- The population standard deviation (the `std_dev` accumulator of
`calculate_adaptive_canny_thresholds`), named for use in proofs. -/
def grayStd (img : GrayImage) : ℚ :=
  Rat.sqrt ((img.pixels.map fun (p : Nat) => ((p : ℚ) - grayMean img) * ((p : ℚ) - grayMean img)).sum /
    ((img.width * img.height : Nat) : ℚ))

/-- The BoundingBox invariant of spec §3: `x2 ≥ x1`, `y2 ≥ y1`, and the
rectangle lies within the background bounds. -/
def BBoxWithin (bg : RGBAImage) (r : SlideBBox) : Prop :=
  r.x1 ≤ r.x2 ∧ r.y1 ≤ r.y2 ∧ r.x2 ≤ bg.width ∧ r.y2 ≤ bg.height

/-- A 2×2 uniform grayscale image of value 20 — a uniform dark image, the
pathological input for the threshold ordering question. -/
def uniformGray20 : GrayImage :=
  { width := 2, height := 2, pix := fun _ _ => 20 }

/-- A 2×2 uniform grayscale image of value 128 (spec §8's numeric example). -/
def uniformGray128 : GrayImage :=
  { width := 2, height := 2, pix := fun _ _ => 128 }

/-- A 1×1 fully transparent RGBA target. -/
def transparentTarget : RGBAImage :=
  { width := 1, height := 1, pix := fun _ _ => { r := 0, g := 0, b := 0, a := 0 } }

/-- A 1×1 opaque white RGBA background. -/
def whiteBackground : RGBAImage :=
  { width := 1, height := 1, pix := fun _ _ => { r := 255, g := 255, b := 255, a := 255 } }

/-- A 2×2 opaque target, larger than `whiteBackground` in both axes. -/
def bigTarget : RGBAImage :=
  { width := 2, height := 2, pix := fun _ _ => { r := 0, g := 0, b := 0, a := 255 } }

/-- A 14×14 RGBA target: a fully transparent 2-pixel border around an
opaque 10×10 block (spec §8's crop-correctness example). -/
def borderedTarget : RGBAImage :=
  { width := 14, height := 14
    pix := fun x y =>
      if 2 ≤ x ∧ x < 12 ∧ 2 ≤ y ∧ y < 12 then { r := 128, g := 128, b := 128, a := 255 }
      else { r := 0, g := 0, b := 0, a := 0 } }

/-- A 14×14 opaque uniform RGBA background. -/
def plainBackground : RGBAImage :=
  { width := 14, height := 14, pix := fun _ _ => { r := 200, g := 200, b := 200, a := 255 } }

/-- A 2×1 grayscale edge map with distinct pixels, for witnesses of the
template-matching claims. -/
def tinyBackgroundMap : GrayImage :=
  { width := 2, height := 1, pix := fun x _ => if x = 0 then 0 else 5 }

/-- A 1×1 grayscale edge map, for witnesses of the template-matching
claims. -/
def tinyTemplateMap : GrayImage :=
  { width := 1, height := 1, pix := fun _ _ => 3 }

theorem minFold_le_init {α : Type} (P : α → Prop) [DecidablePred P] (proj : α → Nat) :
    ∀ (L : List α) (m0 : Nat), minFold P proj L m0 ≤ m0 := by
  intro L
  induction L with
  | nil => intro m0; exact le_rfl
  | cons a t ih =>
    intro m0
    simp only [minFold, List.foldl_cons]
    refine le_trans (ih _) ?_
    by_cases hp : P a
    · by_cases hlt : proj a < m0
      · simp [hp, hlt, le_of_lt hlt]
      · simp [hp, hlt]
    · simp [hp]

theorem minFold_le_of_mem {α : Type} (P : α → Prop) [DecidablePred P] (proj : α → Nat) :
    ∀ (L : List α) (m0 : Nat) (q : α), q ∈ L → P q → minFold P proj L m0 ≤ proj q := by
  intro L
  induction L with
  | nil => intro m0 q hq; exact absurd hq (List.not_mem_nil q)
  | cons a t ih =>
    intro m0 q hq hP
    rcases List.mem_cons.mp hq with rfl | hqt
    · simp only [minFold, List.foldl_cons]
      refine le_trans (minFold_le_init P proj t _) ?_
      by_cases hlt : proj q < m0
      · simp [hP, hlt]
      · simp [hP, hlt, Nat.le_of_not_lt hlt]
    · simp only [minFold, List.foldl_cons]
      exact ih _ q hqt hP

theorem minFold_mem_or_init {α : Type} (P : α → Prop) [DecidablePred P] (proj : α → Nat) :
    ∀ (L : List α) (m0 : Nat),
      minFold P proj L m0 = m0 ∨ ∃ q ∈ L, P q ∧ minFold P proj L m0 = proj q := by
  intro L
  induction L with
  | nil => intro m0; exact Or.inl rfl
  | cons a t ih =>
    intro m0
    simp only [minFold, List.foldl_cons]
    rcases ih (if P a then (if proj a < m0 then proj a else m0) else m0) with h | ⟨q, hq, hP, h⟩
    · by_cases hp : P a
      · by_cases hlt : proj a < m0
        · right
          exact ⟨a, List.mem_cons_self a t, hp, by simpa [hp, hlt] using h⟩
        · left; simpa [hp, hlt] using h
      · left; simpa [hp] using h
    · right
      exact ⟨q, List.mem_cons_of_mem a hq, hP, h⟩

theorem maxFold_ge_init {α : Type} (P : α → Prop) [DecidablePred P] (proj : α → Nat) :
    ∀ (L : List α) (m0 : Nat), m0 ≤ maxFold P proj L m0 := by
  intro L
  induction L with
  | nil => intro m0; exact le_rfl
  | cons a t ih =>
    intro m0
    simp only [maxFold, List.foldl_cons]
    refine le_trans ?_ (ih _)
    by_cases hp : P a
    · by_cases hlt : proj a > m0
      · simp [hp, hlt, le_of_lt hlt]
      · simp [hp, hlt]
    · simp [hp]

theorem maxFold_ge_of_mem {α : Type} (P : α → Prop) [DecidablePred P] (proj : α → Nat) :
    ∀ (L : List α) (m0 : Nat) (q : α), q ∈ L → P q → proj q ≤ maxFold P proj L m0 := by
  intro L
  induction L with
  | nil => intro m0 q hq; exact absurd hq (List.not_mem_nil q)
  | cons a t ih =>
    intro m0 q hq hP
    rcases List.mem_cons.mp hq with rfl | hqt
    · simp only [maxFold, List.foldl_cons]
      refine le_trans ?_ (maxFold_ge_init P proj t _)
      by_cases hlt : proj q > m0
      · simp [hP, hlt]
      · simp [hP, hlt, Nat.le_of_not_lt hlt]
    · simp only [maxFold, List.foldl_cons]
      exact ih _ q hqt hP

theorem maxFold_mem_or_init {α : Type} (P : α → Prop) [DecidablePred P] (proj : α → Nat) :
    ∀ (L : List α) (m0 : Nat),
      maxFold P proj L m0 = m0 ∨ ∃ q ∈ L, P q ∧ maxFold P proj L m0 = proj q := by
  intro L
  induction L with
  | nil => intro m0; exact Or.inl rfl
  | cons a t ih =>
    intro m0
    simp only [maxFold, List.foldl_cons]
    rcases ih (if P a then (if proj a > m0 then proj a else m0) else m0) with h | ⟨q, hq, hP, h⟩
    · by_cases hp : P a
      · by_cases hlt : proj a > m0
        · right
          exact ⟨a, List.mem_cons_self a t, hp, by simpa [hp, hlt] using h⟩
        · left; simpa [hp, hlt] using h
      · left; simpa [hp] using h
    · right
      exact ⟨q, List.mem_cons_of_mem a hq, hP, h⟩

theorem mem_scanCoords {w h : Nat} {xy : Nat × Nat} :
    xy ∈ scanCoords w h ↔ xy.1 < w ∧ xy.2 < h := by
  cases xy with
  | mk x y =>
    simp only [scanCoords, List.mem_flatMap, List.mem_map, List.mem_range]
    constructor
    · rintro ⟨a, ha, b, hb, heq⟩
      cases heq
      exact ⟨ha, hb⟩
    · rintro ⟨hx, hy⟩
      exact ⟨x, hx, y, hy, rfl⟩

/-- The `start_x` accumulator of the scan is a running minimum over the
opaque pixels. -/
theorem foldl_scanStep_start_x (img : RGBAImage) :
    ∀ (L : List (Nat × Nat)) (s : CropScan),
      (L.foldl (fun s xy => scanStep (img.pix xy.1 xy.2) xy.1 xy.2 s) s).start_x =
        minFold (fun xy => (img.pix xy.1 xy.2).a ≠ 0) (fun xy => xy.1) L s.start_x := by
  intro L
  induction L with
  | nil => intro s; rfl
  | cons a t ih =>
    intro s
    simp only [List.foldl_cons, minFold, ih]
    by_cases hp : (img.pix a.1 a.2).a ≠ 0
    · simp [scanStep, hp, minFold]
    · simp [scanStep, hp, minFold]

theorem foldl_scanStep_start_y (img : RGBAImage) :
    ∀ (L : List (Nat × Nat)) (s : CropScan),
      (L.foldl (fun s xy => scanStep (img.pix xy.1 xy.2) xy.1 xy.2 s) s).start_y =
        minFold (fun xy => (img.pix xy.1 xy.2).a ≠ 0) (fun xy => xy.2) L s.start_y := by
  intro L
  induction L with
  | nil => intro s; rfl
  | cons a t ih =>
    intro s
    simp only [List.foldl_cons, minFold, ih]
    by_cases hp : (img.pix a.1 a.2).a ≠ 0
    · simp [scanStep, hp, minFold]
    · simp [scanStep, hp, minFold]

theorem foldl_scanStep_end_x (img : RGBAImage) :
    ∀ (L : List (Nat × Nat)) (s : CropScan),
      (L.foldl (fun s xy => scanStep (img.pix xy.1 xy.2) xy.1 xy.2 s) s).end_x =
        maxFold (fun xy => (img.pix xy.1 xy.2).a ≠ 0) (fun xy => xy.1) L s.end_x := by
  intro L
  induction L with
  | nil => intro s; rfl
  | cons a t ih =>
    intro s
    simp only [List.foldl_cons, maxFold, ih]
    by_cases hp : (img.pix a.1 a.2).a ≠ 0
    · simp [scanStep, hp, maxFold]
    · simp [scanStep, hp, maxFold]

theorem foldl_scanStep_end_y (img : RGBAImage) :
    ∀ (L : List (Nat × Nat)) (s : CropScan),
      (L.foldl (fun s xy => scanStep (img.pix xy.1 xy.2) xy.1 xy.2 s) s).end_y =
        maxFold (fun xy => (img.pix xy.1 xy.2).a ≠ 0) (fun xy => xy.2) L s.end_y := by
  intro L
  induction L with
  | nil => intro s; rfl
  | cons a t ih =>
    intro s
    simp only [List.foldl_cons, maxFold, ih]
    by_cases hp : (img.pix a.1 a.2).a ≠ 0
    · simp [scanStep, hp, maxFold]
    · simp [scanStep, hp, maxFold]

theorem alphaScan_start_x_le {img : RGBAImage} {x y : Nat} (h : OpaqueAt img x y) :
    (alphaScan img).start_x ≤ x := by
  obtain ⟨hx, hy, ha⟩ := h
  unfold alphaScan
  rw [foldl_scanStep_start_x]
  exact minFold_le_of_mem (fun xy : Nat × Nat => (img.pix xy.1 xy.2).a ≠ 0) _ _ _ (x, y) (mem_scanCoords.mpr ⟨hx, hy⟩) ha

theorem alphaScan_start_y_le {img : RGBAImage} {x y : Nat} (h : OpaqueAt img x y) :
    (alphaScan img).start_y ≤ y := by
  obtain ⟨hx, hy, ha⟩ := h
  unfold alphaScan
  rw [foldl_scanStep_start_y]
  exact minFold_le_of_mem (fun xy : Nat × Nat => (img.pix xy.1 xy.2).a ≠ 0) _ _ _ (x, y) (mem_scanCoords.mpr ⟨hx, hy⟩) ha

theorem alphaScan_end_x_ge {img : RGBAImage} {x y : Nat} (h : OpaqueAt img x y) :
    x ≤ (alphaScan img).end_x := by
  obtain ⟨hx, hy, ha⟩ := h
  unfold alphaScan
  rw [foldl_scanStep_end_x]
  exact maxFold_ge_of_mem (fun xy : Nat × Nat => (img.pix xy.1 xy.2).a ≠ 0) (fun xy => xy.1) _ _ (x, y) (mem_scanCoords.mpr ⟨hx, hy⟩) ha

theorem alphaScan_end_y_ge {img : RGBAImage} {x y : Nat} (h : OpaqueAt img x y) :
    y ≤ (alphaScan img).end_y := by
  obtain ⟨hx, hy, ha⟩ := h
  unfold alphaScan
  rw [foldl_scanStep_end_y]
  exact maxFold_ge_of_mem (fun xy : Nat × Nat => (img.pix xy.1 xy.2).a ≠ 0) (fun xy => xy.2) _ _ (x, y) (mem_scanCoords.mpr ⟨hx, hy⟩) ha

/-- When some pixel is opaque, `start_x` is the least `x` coordinate of an
opaque pixel. -/
theorem alphaScan_start_x_isLeast {img : RGBAImage}
    (h : ∃ x y, OpaqueAt img x y) :
    IsLeast {x | ∃ y, OpaqueAt img x y} (alphaScan img).start_x := by
  obtain ⟨x0, y0, h0⟩ := h
  constructor
  · have hmem := minFold_mem_or_init (fun xy : Nat × Nat => (img.pix xy.1 xy.2).a ≠ 0)
      (fun xy => xy.1) (scanCoords img.width img.height) img.width
    have hrw : (alphaScan img).start_x =
        minFold (fun xy : Nat × Nat => (img.pix xy.1 xy.2).a ≠ 0) (fun xy => xy.1)
          (scanCoords img.width img.height) img.width := by
      unfold alphaScan
      rw [foldl_scanStep_start_x]
    rcases hmem with hinit | ⟨q, hq, hP, heq⟩
    · exfalso
      have hle := alphaScan_start_x_le h0
      rw [hrw, hinit] at hle
      exact absurd (lt_of_le_of_lt hle h0.1) (lt_irrefl _)
    · have hq' := mem_scanCoords.mp hq
      refine ⟨q.2, ?_⟩
      rw [hrw, heq]
      exact ⟨hq'.1, hq'.2, hP⟩
  · rintro x ⟨y, hxy⟩
    exact alphaScan_start_x_le hxy

theorem alphaScan_start_y_isLeast {img : RGBAImage}
    (h : ∃ x y, OpaqueAt img x y) :
    IsLeast {y | ∃ x, OpaqueAt img x y} (alphaScan img).start_y := by
  obtain ⟨x0, y0, h0⟩ := h
  constructor
  · have hmem := minFold_mem_or_init (fun xy : Nat × Nat => (img.pix xy.1 xy.2).a ≠ 0)
      (fun xy => xy.2) (scanCoords img.width img.height) img.height
    have hrw : (alphaScan img).start_y =
        minFold (fun xy : Nat × Nat => (img.pix xy.1 xy.2).a ≠ 0) (fun xy => xy.2)
          (scanCoords img.width img.height) img.height := by
      unfold alphaScan
      rw [foldl_scanStep_start_y]
    rcases hmem with hinit | ⟨q, hq, hP, heq⟩
    · exfalso
      have hle := alphaScan_start_y_le h0
      rw [hrw, hinit] at hle
      exact absurd (lt_of_le_of_lt hle h0.2.1) (lt_irrefl _)
    · have hq' := mem_scanCoords.mp hq
      refine ⟨q.1, ?_⟩
      rw [hrw, heq]
      exact ⟨hq'.1, hq'.2, hP⟩
  · rintro y ⟨x, hxy⟩
    exact alphaScan_start_y_le hxy

theorem alphaScan_end_x_lt {img : RGBAImage} (h : 0 < img.width) :
    (alphaScan img).end_x < img.width := by
  have hrw : (alphaScan img).end_x =
      maxFold (fun xy : Nat × Nat => (img.pix xy.1 xy.2).a ≠ 0) (fun xy => xy.1)
        (scanCoords img.width img.height) 0 := by
    unfold alphaScan
    rw [foldl_scanStep_end_x]
  rcases maxFold_mem_or_init (fun xy : Nat × Nat => (img.pix xy.1 xy.2).a ≠ 0)
      (fun xy => xy.1) (scanCoords img.width img.height) 0 with hinit | ⟨q, hq, _, heq⟩
  · rw [hrw, hinit]; exact h
  · rw [hrw, heq]; exact (mem_scanCoords.mp hq).1

theorem alphaScan_end_y_lt {img : RGBAImage} (h : 0 < img.height) :
    (alphaScan img).end_y < img.height := by
  have hrw : (alphaScan img).end_y =
      maxFold (fun xy : Nat × Nat => (img.pix xy.1 xy.2).a ≠ 0) (fun xy => xy.2)
        (scanCoords img.width img.height) 0 := by
    unfold alphaScan
    rw [foldl_scanStep_end_y]
  rcases maxFold_mem_or_init (fun xy : Nat × Nat => (img.pix xy.1 xy.2).a ≠ 0)
      (fun xy => xy.2) (scanCoords img.width img.height) 0 with hinit | ⟨q, hq, _, heq⟩
  · rw [hrw, hinit]; exact h
  · rw [hrw, heq]; exact (mem_scanCoords.mp hq).2

/-- With at least one opaque pixel the crop branch is taken. -/
theorem alphaScan_start_le_end {img : RGBAImage} (h : ∃ x y, OpaqueAt img x y) :
    (alphaScan img).start_x ≤ (alphaScan img).end_x ∧
      (alphaScan img).start_y ≤ (alphaScan img).end_y := by
  obtain ⟨x, y, hxy⟩ := h
  exact ⟨le_trans (alphaScan_start_x_le hxy) (alphaScan_end_x_ge hxy),
    le_trans (alphaScan_start_y_le hxy) (alphaScan_end_y_ge hxy)⟩

theorem croppedImage_width_le {img : RGBAImage} (h : 0 < img.width) :
    (croppedImage img).width ≤ img.width := by
  unfold croppedImage
  by_cases hc : (alphaScan img).start_x > (alphaScan img).end_x ∨
      (alphaScan img).start_y > (alphaScan img).end_y
  · simp [hc]
  · simp only [hc, if_false]
    calc (alphaScan img).end_x - (alphaScan img).start_x + 1
        ≤ (alphaScan img).end_x + 1 := by
          exact Nat.add_le_add_right (Nat.sub_le _ _) 1
      _ ≤ img.width := alphaScan_end_x_lt h

theorem croppedImage_height_le {img : RGBAImage} (h : 0 < img.height) :
    (croppedImage img).height ≤ img.height := by
  unfold croppedImage
  by_cases hc : (alphaScan img).start_x > (alphaScan img).end_x ∨
      (alphaScan img).start_y > (alphaScan img).end_y
  · simp [hc]
  · simp only [hc, if_false]
    calc (alphaScan img).end_y - (alphaScan img).start_y + 1
        ≤ (alphaScan img).end_y + 1 := by
          exact Nat.add_le_add_right (Nat.sub_le _ _) 1
      _ ≤ img.height := alphaScan_end_y_lt h

/-! ## Helper lemmas: template matching -/

theorem mem_rmOffsets {W H : Nat} {xy : Nat × Nat} :
    xy ∈ rmOffsets W H ↔ xy.1 < W ∧ xy.2 < H := by
  cases xy with
  | mk x y =>
    simp only [rmOffsets, List.mem_flatMap, List.mem_map, List.mem_range]
    constructor
    · rintro ⟨b, hb, a, ha, heq⟩
      cases heq
      exact ⟨ha, hb⟩
    · rintro ⟨hx, hy⟩
      exact ⟨y, hy, x, hx, rfl⟩

/-- The offsets are listed in strictly increasing row-major order. -/
theorem rmOffsets_pairwise (W H : Nat) :
    (rmOffsets W H).Pairwise (fun p q => rmIdx W p < rmIdx W q) := by
  induction H with
  | zero => simp [rmOffsets]
  | succ n ih =>
    have hsplit : rmOffsets W (n + 1) =
        rmOffsets W n ++ ((List.range W).map fun x => (x, n)) := by
      simp [rmOffsets, List.range_succ]
    rw [hsplit]
    rw [List.pairwise_append]
    refine ⟨ih, ?_, ?_⟩
    · rw [List.pairwise_map]
      refine List.Pairwise.imp ?_ (List.pairwise_lt_range W)
      intro a b hab
      simpa [rmIdx] using hab
    · intro p hp q hq
      obtain ⟨hpw, hpn⟩ := mem_rmOffsets.mp hp
      obtain ⟨x, hx, rfl⟩ := List.mem_map.mp hq
      simp only [rmIdx]
      calc p.2 * W + p.1 < p.2 * W + W := Nat.add_lt_add_left hpw _
        _ = (p.2 + 1) * W := by ring
        _ ≤ n * W := Nat.mul_le_mul_right W hpn
        _ ≤ n * W + x := Nat.le_add_right _ _

/-- Behaviour of the maximum scan: folding `bestStep` over a list of
offsets strictly sorted by an index, starting from an offset no later than
any of them, yields the first offset (in index order) attaining the maximum
score. -/
theorem foldl_bestStep_spec (f : Nat × Nat → ℚ) (idx : Nat × Nat → Nat) :
    ∀ (l : List (Nat × Nat)) (bl : Nat × Nat),
      l.Pairwise (fun p q => idx p < idx q) →
      (∀ q ∈ l, idx bl ≤ idx q) →
      ∃ rl ∈ bl :: l,
        l.foldl (bestStep f) { x := bl.1, y := bl.2, score := f bl } =
          { x := rl.1, y := rl.2, score := f rl } ∧
        (∀ q ∈ bl :: l, f q ≤ f rl) ∧
        (∀ q ∈ bl :: l, f q = f rl → idx rl ≤ idx q) := by
  intro l
  induction l with
  | nil =>
    intro bl _ _
    refine ⟨bl, List.mem_cons_self bl [], rfl, ?_, ?_⟩
    · intro q hq
      rcases List.mem_cons.mp hq with rfl | h
      · exact le_rfl
      · exact absurd h (List.not_mem_nil q)
    · intro q hq _
      rcases List.mem_cons.mp hq with rfl | h
      · exact le_rfl
      · exact absurd h (List.not_mem_nil q)
  | cons e t ih =>
    intro bl hpair hafter
    have hpt : t.Pairwise (fun p q => idx p < idx q) := (List.pairwise_cons.mp hpair).2
    have het : ∀ q ∈ t, idx e < idx q := (List.pairwise_cons.mp hpair).1
    have hble : idx bl ≤ idx e := hafter e (List.mem_cons_self e t)
    simp only [List.foldl_cons]
    by_cases hgt : f e > f bl
    · rw [show bestStep f { x := bl.1, y := bl.2, score := f bl } e =
          { x := e.1, y := e.2, score := f e } by simp [bestStep, hgt]]
      obtain ⟨rl, hmem, heq, hmax, hfirst⟩ :=
        ih e hpt (fun q hq => le_of_lt (het q hq))
      refine ⟨rl, ?_, heq, ?_, ?_⟩
      · rcases List.mem_cons.mp hmem with rfl | h
        · exact List.mem_cons_of_mem bl (List.mem_cons_self rl t)
        · exact List.mem_cons_of_mem bl (List.mem_cons_of_mem e h)
      · intro q hq
        rcases List.mem_cons.mp hq with rfl | h
        · exact le_trans (le_of_lt hgt) (hmax e (List.mem_cons_self e t))
        · exact hmax q h
      · intro q hq hfq
        rcases List.mem_cons.mp hq with rfl | h
        · exfalso
          have h1 : f q < f e := hgt
          have h2 : f e ≤ f rl := hmax e (List.mem_cons_self e t)
          rw [hfq] at h1
          exact absurd (lt_of_lt_of_le h1 h2) (lt_irrefl _)
        · exact hfirst q h hfq
    · rw [show bestStep f { x := bl.1, y := bl.2, score := f bl } e =
          { x := bl.1, y := bl.2, score := f bl } by simp [bestStep, hgt]]
      obtain ⟨rl, hmem, heq, hmax, hfirst⟩ :=
        ih bl hpt (fun q hq => le_trans hble (le_of_lt (het q hq)))
      have hle : f e ≤ f bl := not_lt.mp hgt
      refine ⟨rl, ?_, heq, ?_, ?_⟩
      · rcases List.mem_cons.mp hmem with rfl | h
        · exact List.mem_cons_self rl _
        · exact List.mem_cons_of_mem bl (List.mem_cons_of_mem e h)
      · intro q hq
        rcases List.mem_cons.mp hq with heqq | h
        · rw [heqq]
          exact hmax bl (List.mem_cons_self bl t)
        · rcases List.mem_cons.mp h with heqq | ht
          · rw [heqq]
            exact le_trans hle (hmax bl (List.mem_cons_self bl t))
          · exact hmax q (List.mem_cons_of_mem bl ht)
      · intro q hq hfq
        rcases List.mem_cons.mp hq with heqq | h
        · rw [heqq] at hfq ⊢
          exact hfirst bl (List.mem_cons_self bl t) hfq
        · rcases List.mem_cons.mp h with heqq | ht
          · rw [heqq] at hfq ⊢
            have hbl_rl : f bl = f rl :=
              le_antisymm (hmax bl (List.mem_cons_self bl t)) (hfq ▸ hle)
            exact le_trans (hfirst bl (List.mem_cons_self bl t) hbl_rl) hble
          · exact hfirst q (List.mem_cons_of_mem bl ht) hfq

/-- Full characterisation of `findExtremes` under the dimension
precondition: it returns a valid offset carrying its own score, the score
is the global maximum over all valid offsets, and any other offset with the
same score comes later in row-major order. -/
theorem findExtremes_spec (bg tgt : GrayImage) :
    ∃ mp : MatchPoint,
      findExtremes bg tgt = mp ∧
      mp.x ≤ bg.width - tgt.width ∧
      mp.y ≤ bg.height - tgt.height ∧
      mp.score = nccScore bg tgt mp.x mp.y ∧
      (∀ x y, x ≤ bg.width - tgt.width → y ≤ bg.height - tgt.height →
        nccScore bg tgt x y ≤ mp.score) ∧
      (∀ x y, x ≤ bg.width - tgt.width → y ≤ bg.height - tgt.height →
        nccScore bg tgt x y = mp.score →
        rmIdx (bg.width - tgt.width + 1) (mp.x, mp.y) ≤
          rmIdx (bg.width - tgt.width + 1) (x, y)) := by
  obtain ⟨rl, hmem, heq, hmax, hfirst⟩ :=
    foldl_bestStep_spec (fun xy => nccScore bg tgt xy.1 xy.2)
      (rmIdx (bg.width - tgt.width + 1))
      (rmOffsets (bg.width - tgt.width + 1) (bg.height - tgt.height + 1))
      (0, 0)
      (rmOffsets_pairwise _ _)
      (fun q _ => by simp [rmIdx])
  have hbounds : rl.1 ≤ bg.width - tgt.width ∧ rl.2 ≤ bg.height - tgt.height := by
    rcases List.mem_cons.mp hmem with heqq | h
    · rw [heqq]
      exact ⟨Nat.zero_le _, Nat.zero_le _⟩
    · have := mem_rmOffsets.mp h
      exact ⟨Nat.lt_succ_iff.mp this.1, Nat.lt_succ_iff.mp this.2⟩
  refine ⟨{ x := rl.1, y := rl.2, score := nccScore bg tgt rl.1 rl.2 }, ?_, hbounds.1,
    hbounds.2, rfl, ?_, ?_⟩
  · simpa [findExtremes] using heq
  · intro x y hx hy
    exact hmax (x, y) (List.mem_cons_of_mem _
      (mem_rmOffsets.mpr ⟨Nat.lt_succ_iff.mpr hx, Nat.lt_succ_iff.mpr hy⟩))
  · intro x y hx hy hscore
    exact hfirst (x, y) (List.mem_cons_of_mem _
      (mem_rmOffsets.mpr ⟨Nat.lt_succ_iff.mpr hx, Nat.lt_succ_iff.mpr hy⟩)) hscore

/-- Location bound: the matched window stays inside the background edge
map. -/
theorem findExtremes_loc_le (bg tgt : GrayImage)
    (htw : tgt.width ≤ bg.width) (hth : tgt.height ≤ bg.height) :
    (findExtremes bg tgt).x + tgt.width ≤ bg.width ∧
      (findExtremes bg tgt).y + tgt.height ≤ bg.height := by
  obtain ⟨mp, heq, hx, hy, -⟩ := findExtremes_spec bg tgt
  rw [heq]
  constructor
  · calc mp.x + tgt.width ≤ (bg.width - tgt.width) + tgt.width :=
        Nat.add_le_add_right hx _
      _ = bg.width := Nat.sub_add_cancel htw
  · calc mp.y + tgt.height ≤ (bg.height - tgt.height) + tgt.height :=
        Nat.add_le_add_right hy _
      _ = bg.height := Nat.sub_add_cancel hth

/-! ## Claim theorems -/

/-- `calculate_adaptive_canny_thresholds` written through the named mean
and standard deviation. -/
theorem calculate_adaptive_canny_thresholds_eq (img : GrayImage) :
    calculate_adaptive_canny_thresholds img =
      (max (max (grayMean img - grayStd img) 0) 50,
        min (min (grayMean img + grayStd img * 2) 255) 250) := rfl

theorem mem_pixels {img : GrayImage} {p : Nat} (hp : p ∈ img.pixels) :
    ∃ x, x < img.width ∧ ∃ y, y < img.height ∧ p = img.pix x y := by
  rw [GrayImage.pixels, List.mem_flatMap] at hp
  obtain ⟨y, hy, hmem⟩ := hp
  rw [List.mem_map] at hmem
  obtain ⟨x, hx, hxy⟩ := hmem
  rw [List.mem_range] at hy hx
  exact ⟨x, hx, y, hy, hxy.symm⟩

theorem grayMean_nonneg (img : GrayImage) : 0 ≤ grayMean img := by
  apply div_nonneg
  · apply List.sum_nonneg
    intro q hq
    rw [List.mem_map] at hq
    obtain ⟨p, hp, hpq⟩ := hq
    rw [← hpq]
    exact Nat.cast_nonneg p
  · exact Nat.cast_nonneg _

theorem sum_map_const_range (n w : Nat) :
    ((List.range n).map fun _ => w).sum = n * w := by
  induction n with
  | zero => simp
  | succ k ih =>
    rw [List.range_succ, List.map_append, List.sum_append, ih]
    simp [Nat.succ_mul]

theorem pixels_length (img : GrayImage) :
    img.pixels.length = img.height * img.width := by
  rw [GrayImage.pixels, List.length_flatMap]
  have hmap : (List.map (fun y => (List.map (fun x => img.pix x y)
      (List.range img.width)).length) (List.range img.height)) =
      (List.range img.height).map fun _ => img.width := by
    apply List.map_congr_left
    intro y _
    rw [List.length_map, List.length_range]
  calc (List.map (List.length ∘ fun y => List.map (fun x => img.pix x y)
        (List.range img.width)) (List.range img.height)).sum
      = ((List.range img.height).map fun _ => img.width).sum := by
        rw [← hmap]
        rfl
    _ = img.height * img.width := sum_map_const_range _ _

theorem grayMean_le_255 (img : GrayImage)
    (hne : 0 < img.width * img.height)
    (h8 : ∀ x < img.width, ∀ y < img.height, img.pix x y ≤ 255) :
    grayMean img ≤ 255 := by
  have hnpos : (0 : ℚ) < ((img.width * img.height : Nat) : ℚ) := by
    exact_mod_cast hne
  rw [grayMean, div_le_iff₀ hnpos]
  have hbound : ∀ q ∈ img.pixels.map (fun (p : Nat) => (p : ℚ)), q ≤ (255 : ℚ) := by
    intro q hq
    rw [List.mem_map] at hq
    obtain ⟨p, hp, hpq⟩ := hq
    obtain ⟨x, hx, y, hy, hpxy⟩ := mem_pixels hp
    rw [← hpq, hpxy]
    exact_mod_cast h8 x hx y hy
  have hlen : (img.pixels.map (fun (p : Nat) => (p : ℚ))).length = img.pixels.length :=
    List.length_map _ _
  calc (img.pixels.map fun (p : Nat) => (p : ℚ)).sum
      ≤ (img.pixels.map (fun (p : Nat) => (p : ℚ))).length • (255 : ℚ) :=
        List.sum_le_card_nsmul _ _ hbound
    _ = (img.pixels.length : ℚ) * 255 := by
        rw [hlen, nsmul_eq_mul]
    _ = 255 * ((img.width * img.height : Nat) : ℚ) := by
        rw [pixels_length]
        push_cast
        ring

theorem grayStd_nonneg (img : GrayImage) : 0 ≤ grayStd img :=
  Rat.sqrt_nonneg _

/-- C4: for every non-empty 8-bit grayscale image, the adaptive threshold
estimator returns `low ∈ [50, 255]` and `high ∈ [0, 250]`. -/
theorem C4_adaptive_threshold_bounds (img : GrayImage)
    (hne : 0 < img.width * img.height)
    (h8 : ∀ x < img.width, ∀ y < img.height, img.pix x y ≤ 255) :
    50 ≤ (calculate_adaptive_canny_thresholds img).1 ∧
      (calculate_adaptive_canny_thresholds img).1 ≤ 255 ∧
      0 ≤ (calculate_adaptive_canny_thresholds img).2 ∧
      (calculate_adaptive_canny_thresholds img).2 ≤ 250 := by
  rw [calculate_adaptive_canny_thresholds_eq]
  have hm0 := grayMean_nonneg img
  have hm255 := grayMean_le_255 img hne h8
  have hs0 := grayStd_nonneg img
  refine ⟨le_max_right _ _, ?_, ?_, min_le_right _ _⟩
  · apply max_le
    · apply max_le
      · linarith
      · norm_num
    · norm_num
  · apply le_min
    · apply le_min
      · linarith
      · norm_num
    · norm_num

/-- Witness for C4 at the 2×2 uniform-128 image (spec §8's numeric
example: low = high = 128, inside both ranges). -/
theorem C4_adaptive_threshold_bounds_witness :
    50 ≤ (calculate_adaptive_canny_thresholds uniformGray128).1 ∧
      (calculate_adaptive_canny_thresholds uniformGray128).1 ≤ 255 ∧
      0 ≤ (calculate_adaptive_canny_thresholds uniformGray128).2 ∧
      (calculate_adaptive_canny_thresholds uniformGray128).2 ≤ 250 :=
  C4_adaptive_threshold_bounds uniformGray128 (by decide) (by decide)

/-- C5: on the uniform dark image the estimator returns `(50, 20)` with
`low > high`, and the adaptive pipeline hands exactly this pair to the
Canny detector, with no swap or special-casing. -/
theorem C5_low_above_high_passed_unmodified :
    calculate_adaptive_canny_thresholds uniformGray20 = (50, 20) ∧
      (calculate_adaptive_canny_thresholds uniformGray20).2 <
        (calculate_adaptive_canny_thresholds uniformGray20).1 ∧
      ∀ E : EdgeDetector, adaptiveEdges E uniformGray20 = E.canny uniformGray20 50 20 := by
  have hpix : uniformGray20.pixels = [20, 20, 20, 20] := rfl
  have hw2 : uniformGray20.width = 2 := rfl
  have hh2 : uniformGray20.height = 2 := rfl
  have hm : grayMean uniformGray20 = 20 := by
    simp only [grayMean, hpix, hw2, hh2]
    norm_num
  have hsqrt0 : Rat.sqrt 0 = 0 := by
    rw [show (0 : ℚ) = ((0 : ℕ) : ℚ) by norm_num, Rat.sqrt_natCast, Nat.sqrt_zero]
  have hs : grayStd uniformGray20 = 0 := by
    simp only [grayStd, hpix, hm, hw2, hh2]
    norm_num [hsqrt0]
  have h : calculate_adaptive_canny_thresholds uniformGray20 = (50, 20) := by
    rw [calculate_adaptive_canny_thresholds_eq, hm, hs]
    norm_num [Prod.ext_iff, max_def, min_def]
  refine ⟨h, ?_, ?_⟩
  · rw [h]
    norm_num
  · intro E
    rw [adaptiveEdges, h]

/-- C6: the grayscale conversion computes, per pixel, the luma
`0.299·R + 0.587·G + 0.114·B` rounded to the nearest integer, discarding
the alpha channel, and preserves the image dimensions. -/
theorem C6_grayscale_luma :
    (∀ img : RGBAImage, (grayscale img).width = img.width ∧
      (grayscale img).height = img.height ∧
      ∀ x y, (grayscale img).pix x y = luma (img.pix x y)) ∧
    (∀ p : RGBA, (luma p : ℤ) =
      round ((299 / 1000 : ℚ) * p.r + (587 / 1000 : ℚ) * p.g + (114 / 1000 : ℚ) * p.b)) ∧
    (∀ r g b a1 a2 : Nat,
      luma { r := r, g := g, b := b, a := a1 } = luma { r := r, g := g, b := b, a := a2 }) := by
  refine ⟨fun img => ⟨rfl, rfl, fun x y => rfl⟩, ?_, fun r g b a1 a2 => rfl⟩
  intro p
  have harg : ((299 * p.r + 587 * p.g + 114 * p.b : ℚ)) / 1000 =
      (299 / 1000 : ℚ) * p.r + (587 / 1000 : ℚ) * p.g + (114 / 1000 : ℚ) * p.b := by
    ring
  have hq : (0 : ℚ) ≤ (299 * p.r + 587 * p.g + 114 * p.b : ℚ) / 1000 := by
    positivity
  have hnn : 0 ≤ round ((299 * p.r + 587 * p.g + 114 * p.b : ℚ) / 1000) := by
    rw [round_eq]
    apply Int.floor_nonneg.mpr
    linarith
  rw [luma, Int.toNat_of_nonneg hnn, harg]

theorem windowSum_unit (img : GrayImage) (x y : Nat) (f : Nat → ℚ) :
    windowSum img x y 1 1 f = f (img.pix x y) := by
  simp [windowSum, show List.range 1 = [0] from rfl]

/-- A 1×1 template is flat, so its sum of squares is zero and every
correlation score degenerates to 0. -/
theorem nccScore_of_unit_template (bg tgt : GrayImage) (hw : tgt.width = 1)
    (hh : tgt.height = 1) (x y : Nat) : nccScore bg tgt x y = 0 := by
  simp only [nccScore, hw, hh, windowSum_unit]
  rw [if_pos]
  right
  norm_num

theorem foldl_bestStep_of_const {f : Nat × Nat → ℚ} (c : ℚ) (hf : ∀ xy, f xy = c) :
    ∀ (l : List (Nat × Nat)) (b : MatchPoint), b.score = c →
      l.foldl (bestStep f) b = b := by
  intro l
  induction l with
  | nil => intro b _; rfl
  | cons e t ih =>
    intro b hb
    rw [List.foldl_cons, show bestStep f b e = b by simp [bestStep, hf e, hb]]
    exact ih b hb

/-- Template matching against a 1×1 template always lands at the origin
with score 0. -/
theorem findExtremes_unit_template (bg tgt : GrayImage) (hw : tgt.width = 1)
    (hh : tgt.height = 1) :
    findExtremes bg tgt = { x := 0, y := 0, score := 0 } := by
  have hzero : ∀ x y, nccScore bg tgt x y = 0 := nccScore_of_unit_template bg tgt hw hh
  simp only [findExtremes]
  rw [foldl_bestStep_of_const 0 (fun xy => hzero xy.1 xy.2) _ _ (hzero 0 0)]
  rw [hzero 0 0]

/-- The improved internal pipelines never produce a validation error
(validation lives in the wrappers). -/
theorem improved_slide_match_internal_ne_validation (E : EdgeDetector)
    (target background : RGBAImage) (ct : ℚ) :
    improved_slide_match_internal E target background ct ≠ .error .validationError := by
  unfold improved_slide_match_internal
  by_cases h1 : ¬ background.width ≥ target.width
  · simp [h1]
  · by_cases h2 : ¬ background.height ≥ target.height
    · simp [h1, h2]
    · simp only [h1, h2, if_false]
      split <;> simp

theorem improved_simple_slide_match_internal_ne_validation (E : EdgeDetector)
    (target background : RGBAImage) (ct : ℚ) :
    improved_simple_slide_match_internal E target background ct ≠ .error .validationError := by
  unfold improved_simple_slide_match_internal
  by_cases h1 : ¬ background.width ≥ target.width
  · simp [h1]
  · by_cases h2 : ¬ background.height ≥ target.height
    · simp [h1, h2]
    · simp only [h1, h2, if_false]
      split <;> simp

/-- C9: a background strictly smaller than the target in either axis makes
every variant fail with the dimension error and produce no bounding box. -/
theorem C9_dimension_error (E : EdgeDetector) (target background : RGBAImage)
    (ct : ℚ) (h : background.width < target.width ∨ background.height < target.height) :
    slide_match_internal E target background = .error .dimensionError ∧
      simple_slide_match_internal E target background = .error .dimensionError ∧
      improved_slide_match_internal E target background ct = .error .dimensionError ∧
      improved_simple_slide_match_internal E target background ct = .error .dimensionError ∧
      slide_match E target background = .error .dimensionError ∧
      simple_slide_match E target background = .error .dimensionError ∧
      improved_slide_match E target background none = .error .dimensionError ∧
      improved_simple_slide_match E target background none = .error .dimensionError := by
  have h1 : slide_match_internal E target background = .error .dimensionError := by
    unfold slide_match_internal
    rcases h with h | h
    · rw [if_pos (not_le.mpr h)]
    · by_cases hw : background.width ≥ target.width
      · rw [if_neg (not_not_intro hw), if_pos (not_le.mpr h)]
      · rw [if_pos hw]
  have h2 : simple_slide_match_internal E target background = .error .dimensionError := by
    unfold simple_slide_match_internal
    rcases h with h | h
    · rw [if_pos (not_le.mpr h)]
    · by_cases hw : background.width ≥ target.width
      · rw [if_neg (not_not_intro hw), if_pos (not_le.mpr h)]
      · rw [if_pos hw]
  have h3 : ∀ c : ℚ, improved_slide_match_internal E target background c =
      .error .dimensionError := by
    intro c
    unfold improved_slide_match_internal
    rcases h with h | h
    · rw [if_pos (not_le.mpr h)]
    · by_cases hw : background.width ≥ target.width
      · rw [if_neg (not_not_intro hw), if_pos (not_le.mpr h)]
      · rw [if_pos hw]
  have h4 : ∀ c : ℚ, improved_simple_slide_match_internal E target background c =
      .error .dimensionError := by
    intro c
    unfold improved_simple_slide_match_internal
    rcases h with h | h
    · rw [if_pos (not_le.mpr h)]
    · by_cases hw : background.width ≥ target.width
      · rw [if_neg (not_not_intro hw), if_pos (not_le.mpr h)]
      · rw [if_pos hw]
  have hv : ¬ ¬ ((0 : ℚ) ≤ Option.getD none (3 / 10) ∧ Option.getD none (3 / 10) ≤ (1 : ℚ)) := by
    rw [Option.getD_none]
    norm_num
  refine ⟨h1, h2, h3 ct, h4 ct, h1, h2, ?_, ?_⟩
  · unfold improved_slide_match
    rw [if_neg hv]
    exact h3 _
  · unfold improved_simple_slide_match
    rw [if_neg hv]
    exact h4 _

/-- Witness for C9: a 2×2 target against a 1×1 background. -/
theorem C9_dimension_error_witness :
    slide_match_internal idEdges bigTarget whiteBackground = .error .dimensionError ∧
      simple_slide_match_internal idEdges bigTarget whiteBackground = .error .dimensionError ∧
      improved_slide_match_internal idEdges bigTarget whiteBackground (3 / 10) =
        .error .dimensionError ∧
      improved_simple_slide_match_internal idEdges bigTarget whiteBackground (3 / 10) =
        .error .dimensionError ∧
      slide_match idEdges bigTarget whiteBackground = .error .dimensionError ∧
      simple_slide_match idEdges bigTarget whiteBackground = .error .dimensionError ∧
      improved_slide_match idEdges bigTarget whiteBackground none = .error .dimensionError ∧
      improved_simple_slide_match idEdges bigTarget whiteBackground none =
        .error .dimensionError :=
  C9_dimension_error idEdges bigTarget whiteBackground (3 / 10) (Or.inl (by decide))

/-- C10: a supplied confidence threshold outside `[0, 1]` makes every
adaptive entry point fail with the validation error, for all image inputs
(so before any matching); with no threshold supplied the default `0.3` is
used and no validation error can occur. -/
theorem C10_threshold_validation (E : EdgeDetector) (target background : RGBAImage)
    (ct : ℚ) (hct : ct < 0 ∨ 1 < ct) :
    improved_slide_match E target background (some ct) = .error .validationError ∧
      improved_simple_slide_match E target background (some ct) = .error .validationError ∧
      improved_slide_match_with_path E (.ok target) (.ok background) (some ct) =
        .error .validationError ∧
      improved_simple_slide_match_with_path E (.ok target) (.ok background) (some ct) =
        .error .validationError ∧
      improved_slide_match E target background none =
        improved_slide_match_internal E target background (3 / 10) ∧
      improved_simple_slide_match E target background none =
        improved_simple_slide_match_internal E target background (3 / 10) ∧
      improved_slide_match E target background none ≠ .error .validationError ∧
      improved_simple_slide_match E target background none ≠ .error .validationError := by
  have hbad : ¬ ((0 : ℚ) ≤ Option.getD (some ct) (3 / 10) ∧
      Option.getD (some ct) (3 / 10) ≤ 1) := by
    rw [Option.getD_some]
    rcases hct with h | h
    · exact fun hc => absurd hc.1 (not_le.mpr h)
    · exact fun hc => absurd hc.2 (not_le.mpr h)
  have hgood : ¬ ¬ ((0 : ℚ) ≤ Option.getD none (3 / 10) ∧
      Option.getD none (3 / 10) ≤ (1 : ℚ)) := by
    rw [Option.getD_none]
    norm_num
  have hdef1 : improved_slide_match E target background none =
      improved_slide_match_internal E target background (3 / 10) := by
    unfold improved_slide_match
    rw [if_neg hgood, Option.getD_none]
  have hdef2 : improved_simple_slide_match E target background none =
      improved_simple_slide_match_internal E target background (3 / 10) := by
    unfold improved_simple_slide_match
    rw [if_neg hgood, Option.getD_none]
  refine ⟨?_, ?_, ?_, ?_, hdef1, hdef2, ?_, ?_⟩
  · unfold improved_slide_match
    rw [if_pos hbad]
  · unfold improved_simple_slide_match
    rw [if_pos hbad]
  · simp only [improved_slide_match_with_path]
    rw [if_pos hbad]
  · simp only [improved_simple_slide_match_with_path]
    rw [if_pos hbad]
  · rw [hdef1]
    exact improved_slide_match_internal_ne_validation E target background (3 / 10)
  · rw [hdef2]
    exact improved_simple_slide_match_internal_ne_validation E target background (3 / 10)

/-- Witness for C10 at threshold `3/2` on concrete 1×1 images. -/
theorem C10_threshold_validation_witness :
    improved_slide_match idEdges transparentTarget whiteBackground (some (3 / 2)) =
        .error .validationError ∧
      improved_simple_slide_match idEdges transparentTarget whiteBackground (some (3 / 2)) =
        .error .validationError ∧
      improved_slide_match_with_path idEdges (.ok transparentTarget) (.ok whiteBackground)
        (some (3 / 2)) = .error .validationError ∧
      improved_simple_slide_match_with_path idEdges (.ok transparentTarget) (.ok whiteBackground)
        (some (3 / 2)) = .error .validationError ∧
      improved_slide_match idEdges transparentTarget whiteBackground none =
        improved_slide_match_internal idEdges transparentTarget whiteBackground (3 / 10) ∧
      improved_simple_slide_match idEdges transparentTarget whiteBackground none =
        improved_simple_slide_match_internal idEdges transparentTarget whiteBackground (3 / 10) ∧
      improved_slide_match idEdges transparentTarget whiteBackground none ≠
        .error .validationError ∧
      improved_simple_slide_match idEdges transparentTarget whiteBackground none ≠
        .error .validationError :=
  C10_threshold_validation idEdges transparentTarget whiteBackground (3 / 2)
    (Or.inr (by norm_num))

/-- C1: when the adaptive pipeline's maximum correlation score is at most
the confidence threshold, the improved variants return exactly the result
of the corresponding baseline variants on the same inputs. -/
theorem C1_confidence_fallback (E : EdgeDetector) (target background : RGBAImage)
    (ct : ℚ) (hv : 0 ≤ ct ∧ ct ≤ 1)
    (hw : background.width ≥ target.width) (hh : background.height ≥ target.height) :
    (adaptiveScoreCropped E target background ≤ ct →
      improved_slide_match E target background (some ct) =
        slide_match E target background) ∧
    (adaptiveScoreSimple E target background ≤ ct →
      improved_simple_slide_match E target background (some ct) =
        simple_slide_match E target background) := by
  constructor
  · intro hs
    have hng : ¬ (validate_match_result
        ((findExtremes (adaptiveEdges E (grayscale background))
          (adaptiveEdges E (grayscale (croppedImage target)))).score) ct = true) := by
      simp only [validate_match_result, decide_eq_true_eq]
      exact not_lt.mpr hs
    simp only [improved_slide_match, slide_match, Option.getD_some]
    rw [if_neg (not_not_intro hv)]
    simp only [improved_slide_match_internal, slide_match_internal]
    rw [if_neg (not_not_intro hw), if_neg (not_not_intro hh),
      if_neg (not_not_intro hw), if_neg (not_not_intro hh), if_pos hng]
  · intro hs
    have hng : ¬ (validate_match_result
        ((findExtremes (adaptiveEdges E (grayscale background))
          (adaptiveEdges E (grayscale target))).score) ct = true) := by
      simp only [validate_match_result, decide_eq_true_eq]
      exact not_lt.mpr hs
    simp only [improved_simple_slide_match, simple_slide_match, Option.getD_some]
    rw [if_neg (not_not_intro hv)]
    simp only [improved_simple_slide_match_internal, simple_slide_match_internal]
    rw [if_neg (not_not_intro hw), if_neg (not_not_intro hh),
      if_neg (not_not_intro hw), if_neg (not_not_intro hh), if_pos hng]

theorem croppedImage_transparentTarget :
    croppedImage transparentTarget = transparentTarget := by
  simp only [croppedImage]
  rw [if_pos]
  decide

/-- Witness for C1: on a transparent 1×1 target against a 1×1 background
the adaptive score degenerates to 0 ≤ 0.3 and both fallbacks agree with
the baselines. -/
theorem C1_confidence_fallback_witness :
    improved_slide_match idEdges transparentTarget whiteBackground (some (3 / 10)) =
        slide_match idEdges transparentTarget whiteBackground ∧
      improved_simple_slide_match idEdges transparentTarget whiteBackground (some (3 / 10)) =
        simple_slide_match idEdges transparentTarget whiteBackground := by
  have h := C1_confidence_fallback idEdges transparentTarget whiteBackground (3 / 10)
    (by norm_num) (by decide) (by decide)
  have hs1 : adaptiveScoreCropped idEdges transparentTarget whiteBackground ≤ 3 / 10 := by
    rw [adaptiveScoreCropped,
      show adaptiveEdges idEdges (grayscale (croppedImage transparentTarget)) =
        grayscale (croppedImage transparentTarget) from rfl,
      show adaptiveEdges idEdges (grayscale whiteBackground) =
        grayscale whiteBackground from rfl,
      croppedImage_transparentTarget,
      findExtremes_unit_template (grayscale whiteBackground) (grayscale transparentTarget)
        rfl rfl]
    norm_num
  have hs2 : adaptiveScoreSimple idEdges transparentTarget whiteBackground ≤ 3 / 10 := by
    rw [adaptiveScoreSimple,
      show adaptiveEdges idEdges (grayscale transparentTarget) =
        grayscale transparentTarget from rfl,
      show adaptiveEdges idEdges (grayscale whiteBackground) =
        grayscale whiteBackground from rfl,
      findExtremes_unit_template (grayscale whiteBackground) (grayscale transparentTarget)
        rfl rfl]
    norm_num
  exact ⟨h.1 hs1, h.2 hs2⟩

theorem adaptiveEdges_width (E : EdgeDetector) (g : GrayImage) :
    (adaptiveEdges E g).width = g.width := by
  rw [adaptiveEdges, E.canny_width]

theorem adaptiveEdges_height (E : EdgeDetector) (g : GrayImage) :
    (adaptiveEdges E g).height = g.height := by
  rw [adaptiveEdges, E.canny_height]

/-- The record built from a match point satisfies the bounding-box
invariant whenever the template edge map fits in the background. -/
theorem bbox_within_of_edges (bg : RGBAImage) (tgtE bgE : GrayImage) (a b : Nat)
    (hbw : bgE.width = bg.width) (hbh : bgE.height = bg.height)
    (htw : tgtE.width ≤ bg.width) (hth : tgtE.height ≤ bg.height) :
    BBoxWithin bg
      { target_x := a, target_y := b,
        x1 := (findExtremes bgE tgtE).x, y1 := (findExtremes bgE tgtE).y,
        x2 := (findExtremes bgE tgtE).x + tgtE.width,
        y2 := (findExtremes bgE tgtE).y + tgtE.height } := by
  have hloc := findExtremes_loc_le bgE tgtE (by rw [hbw]; exact htw) (by rw [hbh]; exact hth)
  refine ⟨Nat.le_add_right _ _, Nat.le_add_right _ _, ?_, ?_⟩
  · rw [← hbw]
    exact hloc.1
  · rw [← hbh]
    exact hloc.2

/-- C3: under the dimension precondition every variant succeeds and the
returned BoundingBox satisfies `x1 ≤ x2`, `y1 ≤ y2` and lies inside the
background bounds, in the adaptive branch and in the fallback branch. -/
theorem C3_bbox_invariant (E : EdgeDetector) (target background : RGBAImage) (ct : ℚ)
    (hw0 : 0 < target.width) (hh0 : 0 < target.height)
    (hw : background.width ≥ target.width) (hh : background.height ≥ target.height) :
    (∃ r, slide_match_internal E target background = .ok r ∧ BBoxWithin background r) ∧
      (∃ r, simple_slide_match_internal E target background = .ok r ∧
        BBoxWithin background r) ∧
      (∃ r, improved_slide_match_internal E target background ct = .ok r ∧
        BBoxWithin background r) ∧
      (∃ r, improved_simple_slide_match_internal E target background ct = .ok r ∧
        BBoxWithin background r) := by
  have hbw : ∀ lo hi : ℚ, (E.canny (grayscale background) lo hi).width = background.width := by
    intro lo hi
    rw [E.canny_width]
    rfl
  have hbh : ∀ lo hi : ℚ, (E.canny (grayscale background) lo hi).height = background.height := by
    intro lo hi
    rw [E.canny_height]
    rfl
  have habw : (adaptiveEdges E (grayscale background)).width = background.width := by
    rw [adaptiveEdges_width]
    rfl
  have habh : (adaptiveEdges E (grayscale background)).height = background.height := by
    rw [adaptiveEdges_height]
    rfl
  have hcw : ∀ lo hi : ℚ,
      (E.canny (grayscale (croppedImage target)) lo hi).width ≤ background.width := by
    intro lo hi
    rw [E.canny_width]
    exact le_trans (croppedImage_width_le hw0) hw
  have hch : ∀ lo hi : ℚ,
      (E.canny (grayscale (croppedImage target)) lo hi).height ≤ background.height := by
    intro lo hi
    rw [E.canny_height]
    exact le_trans (croppedImage_height_le hh0) hh
  have hacw : (adaptiveEdges E (grayscale (croppedImage target))).width ≤ background.width := by
    rw [adaptiveEdges_width]
    exact le_trans (croppedImage_width_le hw0) hw
  have hach : (adaptiveEdges E (grayscale (croppedImage target))).height ≤
      background.height := by
    rw [adaptiveEdges_height]
    exact le_trans (croppedImage_height_le hh0) hh
  have htw : ∀ lo hi : ℚ,
      (E.canny (grayscale target) lo hi).width ≤ background.width := by
    intro lo hi
    rw [E.canny_width]
    exact hw
  have hth : ∀ lo hi : ℚ,
      (E.canny (grayscale target) lo hi).height ≤ background.height := by
    intro lo hi
    rw [E.canny_height]
    exact hh
  have hatw : (adaptiveEdges E (grayscale target)).width ≤ background.width := by
    rw [adaptiveEdges_width]
    exact hw
  have hath : (adaptiveEdges E (grayscale target)).height ≤ background.height := by
    rw [adaptiveEdges_height]
    exact hh
  refine ⟨?_, ?_, ?_, ?_⟩
  · simp only [slide_match_internal]
    rw [if_neg (not_not_intro hw), if_neg (not_not_intro hh)]
    exact ⟨_, rfl, bbox_within_of_edges background _ _ _ _ (hbw 100 200) (hbh 100 200)
      (hcw 100 200) (hch 100 200)⟩
  · simp only [simple_slide_match_internal]
    rw [if_neg (not_not_intro hw), if_neg (not_not_intro hh)]
    exact ⟨_, rfl, bbox_within_of_edges background _ _ _ _ (hbw 100 200) (hbh 100 200)
      (htw 100 200) (hth 100 200)⟩
  · simp only [improved_slide_match_internal]
    rw [if_neg (not_not_intro hw), if_neg (not_not_intro hh)]
    split
    · exact ⟨_, rfl, bbox_within_of_edges background _ _ _ _ (hbw 100 200) (hbh 100 200)
        (hcw 100 200) (hch 100 200)⟩
    · exact ⟨_, rfl, bbox_within_of_edges background _ _ _ _ habw habh hacw hach⟩
  · simp only [improved_simple_slide_match_internal]
    rw [if_neg (not_not_intro hw), if_neg (not_not_intro hh)]
    split
    · exact ⟨_, rfl, bbox_within_of_edges background _ _ _ _ (hbw 100 200) (hbh 100 200)
        (htw 100 200) (hth 100 200)⟩
    · exact ⟨_, rfl, bbox_within_of_edges background _ _ _ _ habw habh hatw hath⟩

/-- Witness for C3 on concrete 1×1 images. -/
theorem C3_bbox_invariant_witness :
    (∃ r, slide_match_internal idEdges transparentTarget whiteBackground = .ok r ∧
      BBoxWithin whiteBackground r) ∧
      (∃ r, simple_slide_match_internal idEdges transparentTarget whiteBackground = .ok r ∧
        BBoxWithin whiteBackground r) ∧
      (∃ r, improved_slide_match_internal idEdges transparentTarget whiteBackground (3 / 10) =
        .ok r ∧ BBoxWithin whiteBackground r) ∧
      (∃ r, improved_simple_slide_match_internal idEdges transparentTarget whiteBackground
        (3 / 10) = .ok r ∧ BBoxWithin whiteBackground r) :=
  C3_bbox_invariant idEdges transparentTarget whiteBackground (3 / 10)
    (by decide) (by decide) (by decide) (by decide)

/-- C7: the template matcher returns the maximum-score offset, and on ties
the offset that comes first in row-major scan order (y outer, x inner,
ascending). -/
theorem C7_tie_break_first_row_major (bg tgt : GrayImage)
    (_htw : tgt.width ≤ bg.width) (_hth : tgt.height ≤ bg.height) :
    ∃ mp : MatchPoint,
      findExtremes bg tgt = mp ∧
      mp.score = nccScore bg tgt mp.x mp.y ∧
      mp.x ≤ bg.width - tgt.width ∧
      mp.y ≤ bg.height - tgt.height ∧
      (∀ x y, x ≤ bg.width - tgt.width → y ≤ bg.height - tgt.height →
        nccScore bg tgt x y ≤ mp.score) ∧
      (∀ x y, x ≤ bg.width - tgt.width → y ≤ bg.height - tgt.height →
        nccScore bg tgt x y = mp.score →
        rmIdx (bg.width - tgt.width + 1) (mp.x, mp.y) ≤
          rmIdx (bg.width - tgt.width + 1) (x, y)) := by
  obtain ⟨mp, heq, hx, hy, hsc, hmax, hfirst⟩ := findExtremes_spec bg tgt
  exact ⟨mp, heq, hsc, hx, hy, hmax, hfirst⟩

/-- Witness for C7 on a concrete 2×1 background and 1×1 template. -/
theorem C7_tie_break_first_row_major_witness :
    ∃ mp : MatchPoint,
      findExtremes tinyBackgroundMap tinyTemplateMap = mp ∧
      mp.score = nccScore tinyBackgroundMap tinyTemplateMap mp.x mp.y ∧
      mp.x ≤ tinyBackgroundMap.width - tinyTemplateMap.width ∧
      mp.y ≤ tinyBackgroundMap.height - tinyTemplateMap.height ∧
      (∀ x y, x ≤ tinyBackgroundMap.width - tinyTemplateMap.width →
        y ≤ tinyBackgroundMap.height - tinyTemplateMap.height →
        nccScore tinyBackgroundMap tinyTemplateMap x y ≤ mp.score) ∧
      (∀ x y, x ≤ tinyBackgroundMap.width - tinyTemplateMap.width →
        y ≤ tinyBackgroundMap.height - tinyTemplateMap.height →
        nccScore tinyBackgroundMap tinyTemplateMap x y = mp.score →
        rmIdx (tinyBackgroundMap.width - tinyTemplateMap.width + 1) (mp.x, mp.y) ≤
          rmIdx (tinyBackgroundMap.width - tinyTemplateMap.width + 1) (x, y)) :=
  C7_tie_break_first_row_major tinyBackgroundMap tinyTemplateMap (by decide) (by decide)

/-- C8: the cropped variants report the minimal opaque-pixel coordinates
as the crop offset; the uncropped variants always report `(0, 0)`. -/
theorem C8_crop_offset (E : EdgeDetector) (target background : RGBAImage) (ct : ℚ)
    (hw : background.width ≥ target.width) (hh : background.height ≥ target.height)
    (hopq : ∃ x y, OpaqueAt target x y) :
    (∃ r, slide_match_internal E target background = .ok r ∧
      IsLeast {x | ∃ y, OpaqueAt target x y} r.target_x ∧
      IsLeast {y | ∃ x, OpaqueAt target x y} r.target_y) ∧
      (∃ r, improved_slide_match_internal E target background ct = .ok r ∧
        IsLeast {x | ∃ y, OpaqueAt target x y} r.target_x ∧
        IsLeast {y | ∃ x, OpaqueAt target x y} r.target_y) ∧
      (∃ r, simple_slide_match_internal E target background = .ok r ∧
        r.target_x = 0 ∧ r.target_y = 0) ∧
      (∃ r, improved_simple_slide_match_internal E target background ct = .ok r ∧
        r.target_x = 0 ∧ r.target_y = 0) := by
  refine ⟨?_, ?_, ?_, ?_⟩
  · simp only [slide_match_internal]
    rw [if_neg (not_not_intro hw), if_neg (not_not_intro hh)]
    exact ⟨_, rfl, alphaScan_start_x_isLeast hopq, alphaScan_start_y_isLeast hopq⟩
  · simp only [improved_slide_match_internal]
    rw [if_neg (not_not_intro hw), if_neg (not_not_intro hh)]
    split
    · exact ⟨_, rfl, alphaScan_start_x_isLeast hopq, alphaScan_start_y_isLeast hopq⟩
    · exact ⟨_, rfl, alphaScan_start_x_isLeast hopq, alphaScan_start_y_isLeast hopq⟩
  · simp only [simple_slide_match_internal]
    rw [if_neg (not_not_intro hw), if_neg (not_not_intro hh)]
    exact ⟨_, rfl, rfl, rfl⟩
  · simp only [improved_simple_slide_match_internal]
    rw [if_neg (not_not_intro hw), if_neg (not_not_intro hh)]
    split
    · exact ⟨_, rfl, rfl, rfl⟩
    · exact ⟨_, rfl, rfl, rfl⟩

/-- Witness for C8: the 14×14 target with a transparent 2-pixel border
around an opaque 10×10 block yields `target_x = target_y = 2` in the
cropped variants and `(0, 0)` in the uncropped ones. -/
theorem C8_crop_offset_witness :
    (∃ r, slide_match_internal idEdges borderedTarget plainBackground = .ok r ∧
      r.target_x = 2 ∧ r.target_y = 2) ∧
      (∃ r, improved_slide_match_internal idEdges borderedTarget plainBackground (3 / 10) =
        .ok r ∧ r.target_x = 2 ∧ r.target_y = 2) ∧
      (∃ r, simple_slide_match_internal idEdges borderedTarget plainBackground = .ok r ∧
        r.target_x = 0 ∧ r.target_y = 0) ∧
      (∃ r, improved_simple_slide_match_internal idEdges borderedTarget plainBackground
        (3 / 10) = .ok r ∧ r.target_x = 0 ∧ r.target_y = 0) := by
  have hopq : ∃ x y, OpaqueAt borderedTarget x y := ⟨2, 2, by decide⟩
  have h := C8_crop_offset idEdges borderedTarget plainBackground (3 / 10)
    (by decide) (by decide) hopq
  have hLx : IsLeast {x | ∃ y, OpaqueAt borderedTarget x y} 2 := by
    constructor
    · exact ⟨2, by decide⟩
    · rintro x ⟨y, hx1, hy1, ha⟩
      by_cases hcond : 2 ≤ x ∧ x < 12 ∧ 2 ≤ y ∧ y < 12
      · exact hcond.1
      · exfalso
        apply ha
        show (borderedTarget.pix x y).a = 0
        simp only [borderedTarget]
        rw [if_neg hcond]
  have hLy : IsLeast {y | ∃ x, OpaqueAt borderedTarget x y} 2 := by
    constructor
    · exact ⟨2, by decide⟩
    · rintro y ⟨x, hx1, hy1, ha⟩
      by_cases hcond : 2 ≤ x ∧ x < 12 ∧ 2 ≤ y ∧ y < 12
      · exact hcond.2.2.1
      · exfalso
        apply ha
        show (borderedTarget.pix x y).a = 0
        simp only [borderedTarget]
        rw [if_neg hcond]
  obtain ⟨⟨r1, he1, hx1, hy1⟩, ⟨r2, he2, hx2, hy2⟩, h3, h4⟩ := h
  exact ⟨⟨r1, he1, hx1.unique hLx, hy1.unique hLy⟩,
    ⟨r2, he2, hx2.unique hLx, hy2.unique hLy⟩, h3, h4⟩

/-- C2 (code bug): on a fully transparent target no crop is applied and
the image is used unmodified, but the returned `target_x`/`target_y` are
the scan's sentinel initial values — the image width and height — rather
than the origin 0 of the full-image rectangle that the specification
prescribes. Evaluated at a 1×1 fully transparent target: the code returns
`target_x = 1, target_y = 1`, not `0, 0`. -/
theorem C2_no_alpha_returns_width_not_zero :
    alphaScan transparentTarget =
      { start_x := 1, start_y := 1, end_x := 0, end_y := 0 } ∧
      croppedImage transparentTarget = transparentTarget ∧
      slide_match_internal idEdges transparentTarget whiteBackground =
        .ok { target_x := 1, target_y := 1, x1 := 0, y1 := 0, x2 := 1, y2 := 1 } ∧
      improved_slide_match_internal idEdges transparentTarget whiteBackground (3 / 10) =
        .ok { target_x := 1, target_y := 1, x1 := 0, y1 := 0, x2 := 1, y2 := 1 } := by
  have hscan : alphaScan transparentTarget =
      { start_x := 1, start_y := 1, end_x := 0, end_y := 0 } := by decide
  have hfe1 : findExtremes (idEdges.canny (grayscale whiteBackground) 100 200)
      (idEdges.canny (grayscale (croppedImage transparentTarget)) 100 200) =
      { x := 0, y := 0, score := 0 } :=
    findExtremes_unit_template _ _ rfl rfl
  have hfe2 : findExtremes (adaptiveEdges idEdges (grayscale whiteBackground))
      (adaptiveEdges idEdges (grayscale (croppedImage transparentTarget))) =
      { x := 0, y := 0, score := 0 } :=
    findExtremes_unit_template _ _ rfl rfl
  refine ⟨hscan, croppedImage_transparentTarget, ?_, ?_⟩
  · simp only [slide_match_internal]
    rw [if_neg (by decide), if_neg (by decide), hfe1, hscan]
    exact rfl
  · simp only [improved_slide_match_internal]
    rw [if_neg (by decide), if_neg (by decide), hfe2]
    rw [if_pos (show ¬ (validate_match_result
        (MatchPoint.score { x := 0, y := 0, score := 0 }) (3 / 10) = true) by
      simp only [validate_match_result, decide_eq_true_eq]
      norm_num)]
    rw [hfe1, hscan]
    exact rfl
